import Mathlib

/-!
Verification development for the ABAP `READ TABLE ... WITH KEY` remediation
service (`app/app.py`).  The Python source scans a block of source text with
two regular expressions,

  READ_TABLE_RE = READ\s+TABLE\s+(?P<itab>\w+).*?WITH\s+KEY\s+(?P<keys>.+?)(?:\.|\n)
  SORT_RE       = SORT\s+(?P<itab>\w+)\s+BY\s+(?P<fields>.+?)(?:\.|\n)

both IGNORECASE and DOTALL, builds a dict from sorted table name to sort
fields (last write wins), extracts key fields with
`re.findall(r"(\w+)(?=\s*\+\s*\d+\s*\(\d+\)\s*=|\s*=)", keys_raw)`, and
reports every read whose keys are not a prefix of the table's sort fields.

The embedding below reproduces the concrete backtracking behaviour of those
patterns (leftmost match, greedy `\s+` and `\w+` with backtracking, lazy
`.*?` and `.+?`, DOTALL so `.` also matches line breaks) as structural
recursion over the list of characters, so that every definition evaluates
inside the kernel.
-/

namespace App

/-- `\w` for the ASCII inputs handled here: letters, digits and underscore. -/
def isWordChar (c : Char) : Bool := c.isAlphanum || c == '_'

/-- `\s`: the six ASCII whitespace characters recognised by Python's `re`. -/
def isSpaceChar (c : Char) : Bool :=
  c == ' ' || c == '\t' || c == '\n' || c == '\r' || c == '\x0b' || c == '\x0c'

/-- Python `str.upper()` on ASCII text, one character. -/
def upChar (c : Char) : Char := c.toUpper

/-- Python `str.upper()` on ASCII text. -/
def upStr (s : String) : String := String.mk (s.data.map upChar)

/-- Match a literal pattern case-insensitively (the pattern is stored in upper
case); returns the remaining characters on success. -/
def litCI : List Char → List Char → Option (List Char)
  | [], s => some s
  | _ :: _, [] => none
  | p :: ps, c :: cs => if upChar c == p then litCI ps cs else none

/-- Maximal run of whitespace: its length and the rest (`\s*` / greedy `\s+`). -/
def spaceRun : List Char → Nat × List Char
  | [] => (0, [])
  | c :: cs =>
    if isSpaceChar c then
      let r := spaceRun cs
      (r.1 + 1, r.2)
    else (0, c :: cs)

/-- Maximal run of word characters and the rest (greedy `\w+`). -/
def wordRun : List Char → List Char × List Char
  | [] => ([], [])
  | c :: cs =>
    if isWordChar c then
      let r := wordRun cs
      (c :: r.1, r.2)
    else ([], c :: cs)

/-- Maximal run of decimal digits and the rest (greedy `\d+`). -/
def digitRun : List Char → List Char × List Char
  | [] => ([], [])
  | c :: cs =>
    if c.isDigit then
      let r := digitRun cs
      (c :: r.1, r.2)
    else ([], c :: cs)

/-- Lazy `(.+?)(?:\.|\n)` after its first (unconditionally consumed)
character: grow the group until the first `.` or line break, which closes the
match.  Returns the group and the characters after the terminator. -/
def lazyTerm (acc : List Char) : List Char → Option (List Char × List Char)
  | [] => none
  | c :: cs =>
    if c == '.' || c == '\n' then some (acc.reverse, cs)
    else lazyTerm (c :: acc) cs

/-- Lazy `(.+?)(?:\.|\n)` (DOTALL): the group is non-empty and ends right
before the first terminator strictly after its first character. -/
def lazyKeys : List Char → Option (List Char × List Char)
  | [] => none
  | c :: cs => lazyTerm [c] cs

/-- Greedy `\s+` followed by `(.+?)(?:\.|\n)`, with the backtracking Python
performs: try the longest whitespace run first, then shorter runs, and for
each run take the lazily shortest group. -/
def tryWs (s : List Char) : Nat → Option (List Char × List Char)
  | 0 => none
  | w + 1 =>
    match lazyKeys (s.drop (w + 1)) with
    | some r => some r
    | none => tryWs s w

/-- `\s+(.+?)(?:\.|\n)` at the front of `s` (at least one whitespace
character is required). -/
def wsThenKeys (s : List Char) : Option (List Char × List Char) :=
  tryWs s (spaceRun s).1

/-- Anchored attempt of `SORT\s+(\w+)\s+BY\s+(.+?)(?:\.|\n)`; yields the
table name, the raw field text and the characters after the match. -/
def matchSortAt (s : List Char) : Option (String × String × List Char) :=
  match litCI "SORT".data s with
  | none => none
  | some s1 =>
    let r1 := spaceRun s1
    if r1.1 == 0 then none else
    let r2 := wordRun r1.2
    if r2.1.isEmpty then none else
    let r3 := spaceRun r2.2
    if r3.1 == 0 then none else
    match litCI "BY".data r3.2 with
    | none => none
    | some s4 =>
      match wsThenKeys s4 with
      | none => none
      | some fr => some (String.mk r2.1, String.mk fr.1, fr.2)

/-- `WITH\s+KEY\s+(.+?)(?:\.|\n)` anchored at the front of `s`. -/
def tryWithKey (s : List Char) : Option (String × List Char) :=
  match litCI "WITH".data s with
  | none => none
  | some s1 =>
    let r1 := spaceRun s1
    if r1.1 == 0 then none else
    match litCI "KEY".data r1.2 with
    | none => none
    | some s2 =>
      match wsThenKeys s2 with
      | none => none
      | some kr => some (String.mk kr.1, kr.2)

/-- Lazy `.*?WITH\s+KEY\s+(.+?)(?:\.|\n)` (DOTALL): try the tail at the
current position first, then skip one character at a time. -/
def lazyDotStar : List Char → Option (String × List Char)
  | [] => tryWithKey []
  | c :: cs =>
    match tryWithKey (c :: cs) with
    | some r => some r
    | none => lazyDotStar cs

/-- Greedy `\w+` with backtracking, as the itab group of `READ_TABLE_RE`:
try the longest word run first; on failure of the rest of the pattern retry
with a shorter group, down to a single character. -/
def itabTry (s : List Char) : Nat → Option (String × String × List Char)
  | 0 => none
  | k + 1 =>
    match lazyDotStar (s.drop (k + 1)) with
    | some r => some (String.mk (s.take (k + 1)), r.1, r.2)
    | none => itabTry s k

/-- Anchored attempt of
`READ\s+TABLE\s+(\w+).*?WITH\s+KEY\s+(.+?)(?:\.|\n)`; yields the table
name, the raw key text and the characters after the match. -/
def matchReadAt (s : List Char) : Option (String × String × List Char) :=
  match litCI "READ".data s with
  | none => none
  | some s1 =>
    let r1 := spaceRun s1
    if r1.1 == 0 then none else
    match litCI "TABLE".data r1.2 with
    | none => none
    | some s2 =>
      let r2 := spaceRun s2
      if r2.1 == 0 then none else
      let r3 := wordRun r2.2
      itabTry r2.2 r3.1.length

/-- One match of `READ_TABLE_RE.finditer`: character span, the `itab` group
as matched (original case) and the raw `keys` group. -/
structure ReadM where
  mstart : Nat
  mend : Nat
  itab : String
  keysRaw : String
deriving Repr, DecidableEq

/-- One match of `SORT_RE.finditer`: the `itab` group as matched and the raw
`fields` group. -/
structure SortM where
  itab : String
  fieldsRaw : String
deriving Repr, DecidableEq

/-- `READ_TABLE_RE.finditer`: scan left to right, emit the leftmost match,
resume after its end.  The fuel is an upper bound on the number of scan
steps; every step drops at least one character. -/
def readIter : Nat → List Char → Nat → List ReadM
  | 0, _, _ => []
  | fuel + 1, s, pos =>
    match matchReadAt s with
    | some r =>
      let consumed := s.length - r.2.2.length
      ⟨pos, pos + consumed, r.1, r.2.1⟩ :: readIter fuel r.2.2 (pos + consumed)
    | none =>
      match s with
      | [] => []
      | _ :: cs => readIter fuel cs (pos + 1)

/-- All matches of `READ_TABLE_RE` over a text. -/
def readMatches (txt : String) : List ReadM :=
  readIter (txt.data.length + 1) txt.data 0

/-- `SORT_RE.finditer` (the Python code never uses the sort spans). -/
def sortIter : Nat → List Char → List SortM
  | 0, _ => []
  | fuel + 1, s =>
    match matchSortAt s with
    | some r => ⟨r.1, r.2.1⟩ :: sortIter fuel r.2.2
    | none =>
      match s with
      | [] => []
      | _ :: cs => sortIter fuel cs

/-- All matches of `SORT_RE` over a text. -/
def sortMatches (txt : String) : List SortM :=
  sortIter (txt.data.length + 1) txt.data

/-- Separator class of `re.split(r"[ ,]+", ...)`. -/
def splitSep (c : Char) : Bool := c == ' ' || c == ','

/-- The non-empty tokens produced by `re.split(r"[ ,]+", ...)` (the empty
boundary tokens Python may also produce are discarded by the caller's
`if f.strip()` filter anyway). -/
def tokenGo (acc : List Char) : List Char → List (List Char)
  | [] => if acc.isEmpty then [] else [acc.reverse]
  | c :: cs =>
    if splitSep c then
      if acc.isEmpty then tokenGo [] cs else acc.reverse :: tokenGo [] cs
    else tokenGo (c :: acc) cs

/-- Python `str.strip()` restricted to the ASCII whitespace characters. -/
def stripWs (l : List Char) : List Char :=
  ((l.dropWhile isSpaceChar).reverse.dropWhile isSpaceChar).reverse

/-- `[f.strip().upper() for f in re.split(r"[ ,]+", fields_raw) if f.strip()]`. -/
def sortFieldsOfRaw (fieldsRaw : String) : List String :=
  (tokenGo [] fieldsRaw.data).filterMap fun t =>
    let t' := stripWs t
    if t'.isEmpty then none else some (upStr (String.mk t'))

/-- Python dict assignment `sort_map[itab] = fields`: overwrite the entry in
place when the key is present, otherwise append it. -/
def dictInsert (m : List (String × List String)) (k : String) (v : List String) :
    List (String × List String) :=
  if m.any (fun p => p.1 == k) then
    m.map fun p => if p.1 == k then (k, v) else p
  else m ++ [(k, v)]

/-- `extract_sort_statements`: fold all `SORT` matches into the dict, table
names upper-cased, fields split, stripped and upper-cased. -/
def extract_sort_statements (txt : String) : List (String × List String) :=
  (sortMatches txt).foldl
    (fun mp r => dictInsert mp (upStr r.itab) (sortFieldsOfRaw r.fieldsRaw)) []

/-- `fields_match` from the source: both lists non-empty, the sort list at
least as long, and its prefix of the keys' length equal to the keys. -/
def fields_match (sort_fields key_fields : List String) : Bool :=
  if sort_fields.isEmpty || key_fields.isEmpty then false
  else if sort_fields.length < key_fields.length then false
  else sort_fields.take key_fields.length == key_fields

/-- Lookahead `(?=\s*=)`. -/
def afterEq (s : List Char) : Bool :=
  match (spaceRun s).2 with
  | '=' :: _ => true
  | _ => false

/-- Lookahead `(?=\s*\+\s*\d+\s*\(\d+\)\s*=)`: an offset/length qualifier
before the `=` sign. -/
def afterOffsetEq (s : List Char) : Bool :=
  match (spaceRun s).2 with
  | '+' :: s2 =>
    let d1 := digitRun (spaceRun s2).2
    if d1.1.isEmpty then false else
    match (spaceRun d1.2).2 with
    | '(' :: s6 =>
      let d2 := digitRun s6
      if d2.1.isEmpty then false else
      match d2.2 with
      | ')' :: s8 => afterEq s8
      | _ => false
    | _ => false
  | _ => false

/-- `re.findall(r"(\w+)(?=\s*\+\s*\d+\s*\(\d+\)\s*=|\s*=)", keys_raw)`:
every maximal word run whose following text satisfies one of the two
lookaheads.  `acc` is the word run currently being read, reversed. -/
def keyScanGo (acc : List Char) : List Char → List String
  | [] => []
  | c :: cs =>
    if isWordChar c then keyScanGo (c :: acc) cs
    else
      if !acc.isEmpty && (afterOffsetEq (c :: cs) || afterEq (c :: cs)) then
        String.mk acc.reverse :: keyScanGo [] cs
      else keyScanGo [] cs

/-- The `key_fields` list of `find_read_table_usage`, upper-cased. -/
def keyFieldsOf (m : ReadM) : List String :=
  (keyScanGo [] m.keysRaw.data).map upStr

/-- Python dict lookup (dict keys are unique, so first match is the match). -/
def dictGet (k : String) : List (String × List String) → Option (List String)
  | [] => none
  | p :: rest => if p.1 == k then some p.2 else dictGet k rest

/-- `sort_map.get(itab.upper(), [])`. -/
def lookupFields (sm : List (String × List String)) (itab : String) : List String :=
  (dictGet (upStr itab) sm).getD []

/-- One entry of the `hits` list built by `find_read_table_usage`. -/
structure Hit where
  mstart : Nat
  mend : Nat
  itab : String
  keys : List String
  suggestion : Option String
deriving Repr, DecidableEq

/-- Python `", ".join`. -/
def joinSep (sep : String) : List String → String
  | [] => ""
  | [x] => x
  | x :: y :: rest => x ++ sep ++ joinSep sep (y :: rest)

/-- The body of the `for m in READ_TABLE_RE.finditer(txt)` loop: `none` when
the read is already sorted, otherwise the appended hit record. -/
def mkHit (sm : List (String × List String)) (m : ReadM) : Option Hit :=
  let key_fields := keyFieldsOf m
  let sort_fields := lookupFields sm m.itab
  if fields_match sort_fields key_fields then none
  else some
    { mstart := m.mstart, mend := m.mend, itab := m.itab, keys := key_fields,
      suggestion :=
        if key_fields.isEmpty then none
        else some ("SORT " ++ m.itab ++ " BY " ++ joinSep ", " key_fields ++ ".") }

/-- `find_read_table_usage` from the source. -/
def find_read_table_usage (txt : String) : List Hit :=
  (readMatches txt).filterMap (mkHit (extract_sort_statements txt))

/-- `get_line`: 1-based line number of a character offset. -/
def get_line (text : String) (pos : Nat) : Nat :=
  ((text.data.take pos).count '\n') + 1

/-- First index of a line break, if any. -/
def findNl (s : List Char) : Option Nat := s.findIdx? (fun c => c == '\n')

/-- `str.rfind("\n", 0, start)` as an `Option`. -/
def rfindNl (s : List Char) : Option Nat :=
  match findNl s.reverse with
  | none => none
  | some i => some (s.length - 1 - i)

/-- `get_multiline_snippet`: the full physical line(s) touched by the span. -/
def get_multiline_snippet (text : String) (s e : Nat) : String :=
  let cs := text.data
  let lineStart :=
    match rfindNl (cs.take s) with
    | none => 0
    | some i => i + 1
  let lineEnd :=
    match findNl (cs.drop e) with
    | none => cs.length
    | some j => e + j
  String.mk ((cs.drop lineStart).take (lineEnd - lineStart))

/-- The `Finding` pydantic model (all fields optional, default `None`). -/
structure Finding where
  prog_name : Option String := none
  incl_name : Option String := none
  types : Option String := none
  blockname : Option String := none
  starting_line : Option Nat := none
  ending_line : Option Nat := none
  issues_type : Option String := none
  severity : Option String := none
  message : Option String := none
  suggestion : Option String := none
  snippet : Option String := none
deriving Repr, DecidableEq

/-- The `Unit` pydantic model (line numbers default to `0`, code to `""`). -/
structure Unit where
  pgm_name : String
  inc_name : String
  type : String
  name : Option String := none
  start_line : Option Nat := some 0
  end_line : Option Nat := some 0
  code : Option String := some ""
  findings : Option (List Finding) := none
deriving Repr, DecidableEq

/-- The dict returned by `scan_unit` (`unit.model_dump()` with the
`findings` entry replaced). -/
structure ScannedUnit where
  pgm_name : String
  inc_name : String
  type : String
  name : Option String
  start_line : Option Nat
  end_line : Option Nat
  code : Option String
  findings : List Finding
deriving Repr, DecidableEq

/-- Python `repr` of a list of strings, as used by the message f-string. -/
def pyListRepr (l : List String) : String :=
  "[" ++ joinSep ", " (l.map fun s => "\x27" ++ s ++ "\x27") ++ "]"

/-- `snippet.replace("\n", "\\n")`. -/
def escapeNl (s : String) : String :=
  String.mk (s.data.foldr (fun c acc => if c == '\n' then '\\' :: 'n' :: acc else c :: acc) [])

/-- `scan_unit` from the source. -/
def scan_unit (u : Unit) : ScannedUnit :=
  let src := u.code.getD ""
  let base := u.start_line.getD 0
  let findings := (find_read_table_usage src).map fun h =>
    let rel_line := get_line src h.mstart
    let starting := base + (rel_line - 1)
    let snippet := get_multiline_snippet src h.mstart h.mend
    let cnt := snippet.data.count '\n' + 1
    let ending := starting + cnt - 1
    { prog_name := some u.pgm_name
      incl_name := some u.inc_name
      types := some u.type
      blockname := u.name
      starting_line := some starting
      ending_line := some ending
      issues_type := some "READ_TABLE_Without_SORT"
      severity := some "error"
      message := some ("READ TABLE on \x27" ++ h.itab ++ "\x27 without proper SORT for keys "
        ++ pyListRepr h.keys ++ ".")
      suggestion := h.suggestion
      snippet := some (escapeNl snippet) : Finding }
  { pgm_name := u.pgm_name, inc_name := u.inc_name, type := u.type, name := u.name,
    start_line := u.start_line, end_line := u.end_line, code := u.code,
    findings := findings }

/-- The loop body of the `/remediate-array` endpoint. -/
def remediateLoop (acc : List ScannedUnit) : List Unit → List ScannedUnit
  | [] => acc
  | u :: rest =>
    let scanned := scan_unit u
    if scanned.findings.isEmpty then remediateLoop acc rest
    else remediateLoop (acc ++ [scanned]) rest

/-- `remediate_read_array`: keep only scanned units with findings. -/
def remediate_read_array (units : List Unit) : List ScannedUnit :=
  remediateLoop [] units

/-- `remediate_read`: scan a single unit. -/
def remediate_read (u : Unit) : ScannedUnit :=
  scan_unit u

/-! ### Helper lemmas -/

/-- A `filterMap` keeps exactly the elements on which the function is `some`. -/
theorem length_filterMap_eq_length_filter {α β : Type} (f : α → Option β) :
    ∀ l : List α, (l.filterMap f).length = (l.filter fun a => (f a).isSome).length := by
  intro l
  induction l with
  | nil => rfl
  | cons a as ih =>
    cases h : f a with
    | none => simp [List.filterMap_cons, List.filter_cons, h, ih]
    | some b => simp [List.filterMap_cons, List.filter_cons, h, ih]

/-- A `filterMap` over a function that is everywhere `none` is empty. -/
theorem filterMap_nil_of_forall_none {α β : Type} (f : α → Option β) :
    ∀ l : List α, (∀ a ∈ l, f a = none) → l.filterMap f = [] := by
  intro l
  induction l with
  | nil => intro _; rfl
  | cons a as ih =>
    intro h
    rw [List.filterMap_cons, h a (by simp)]
    exact ih fun x hx => h x (by simp [hx])

/-- `find?` over an append: the left list is searched first. -/
theorem findq_append {α : Type} (p : α → Bool) :
    ∀ l₁ l₂ : List α, (l₁ ++ l₂).find? p =
      match l₁.find? p with
      | some x => some x
      | none => l₂.find? p := by
  intro l₁ l₂
  induction l₁ with
  | nil => rfl
  | cons a as ih =>
    cases hpa : p a with
    | true => simp [List.find?, hpa]
    | false => simp [List.find?, hpa, ih]

/-- The loop body emits a hit exactly when `fields_match` fails. -/
theorem mkHit_isSome (sm : List (String × List String)) (m : ReadM) :
    (mkHit sm m).isSome = !(fields_match (lookupFields sm m.itab) (keyFieldsOf m)) := by
  cases hb : fields_match (lookupFields sm m.itab) (keyFieldsOf m) <;> simp [mkHit, hb]

/-- The loop body returns `none` on a covered read. -/
theorem mkHit_none_of_covered (sm : List (String × List String)) (m : ReadM)
    (h : fields_match (lookupFields sm m.itab) (keyFieldsOf m) = true) :
    mkHit sm m = none := by
  simp [mkHit, h]

/-- Shape of the hit produced for an uncovered read. -/
theorem mkHit_spec {sm : List (String × List String)} {m : ReadM} {h : Hit}
    (hh : mkHit sm m = some h) :
    h.itab = m.itab ∧ h.keys = keyFieldsOf m ∧
    fields_match (lookupFields sm m.itab) (keyFieldsOf m) = false ∧
    h.suggestion = (if (keyFieldsOf m).isEmpty then none
      else some ("SORT " ++ m.itab ++ " BY " ++ joinSep ", " (keyFieldsOf m) ++ ".")) := by
  cases hb : fields_match (lookupFields sm m.itab) (keyFieldsOf m) with
  | true => simp [mkHit, hb] at hh
  | false =>
    simp only [mkHit, hb, Bool.false_eq_true, if_false, Option.some.injEq] at hh
    subst hh
    exact ⟨rfl, rfl, rfl, rfl⟩

/-- Turn the negation of a Bool equation into the opposite equation. -/
theorem bool_eq_false {b : Bool} (h : ¬ b = true) : b = false := by
  cases b
  · rfl
  · exact absurd rfl h

/-- Looking up the key just overwritten in place returns the new value. -/
theorem dictGet_map_overwrite (k : String) (v : List String) :
    ∀ mp : List (String × List String), mp.any (fun p => p.1 == k) = true →
      dictGet k (mp.map fun p => if p.1 == k then (k, v) else p) = some v := by
  intro mp
  induction mp with
  | nil => intro h; cases h
  | cons p rest ih =>
    intro h
    simp only [List.map_cons, dictGet]
    by_cases hp : (p.1 == k) = true
    · rw [if_pos hp]
      simp
    · rw [if_neg hp, if_neg hp]
      apply ih
      have h' := h
      simp only [List.any_cons, Bool.or_eq_true] at h'
      rcases h' with h' | h'
      · exact absurd h' hp
      · simpa using h'

/-- Appending a fresh key at the end makes it visible to the lookup. -/
theorem dictGet_append_fresh (k : String) (v : List String) :
    ∀ mp : List (String × List String), mp.any (fun p => p.1 == k) = false →
      dictGet k (mp ++ [(k, v)]) = some v := by
  intro mp
  induction mp with
  | nil => simp [dictGet]
  | cons p rest ih =>
    intro h
    simp only [List.any_cons, Bool.or_eq_false_iff] at h
    simp only [List.cons_append, dictGet]
    rw [if_neg (by simp [h.1])]
    exact ih (by simpa using h.2)

/-- Python dict assignment: the assigned key reads back the new value. -/
theorem dictGet_dictInsert_self (k : String) (v : List String)
    (mp : List (String × List String)) : dictGet k (dictInsert mp k v) = some v := by
  unfold dictInsert
  by_cases hany : mp.any (fun p => p.1 == k) = true
  · rw [if_pos hany]
    exact dictGet_map_overwrite k v mp hany
  · rw [if_neg hany]
    exact dictGet_append_fresh k v mp (bool_eq_false hany)

/-- Python dict assignment: other keys are unaffected. -/
theorem dictGet_dictInsert_ne (k k' : String) (hne : k' ≠ k) (v : List String) :
    ∀ mp : List (String × List String), dictGet k (dictInsert mp k' v) = dictGet k mp := by
  have hkk : (k' == k) = false := beq_eq_false_iff_ne.mpr hne
  intro mp
  unfold dictInsert
  by_cases hany : mp.any (fun p => p.1 == k') = true
  · rw [if_pos hany]
    clear hany
    induction mp with
    | nil => rfl
    | cons p rest ih =>
      simp only [List.map_cons, dictGet]
      by_cases hp : (p.1 == k') = true
      · rw [if_pos hp]
        have hpk : (p.1 == k) = false := by
          rw [beq_iff_eq] at hp
          rw [hp]
          exact hkk
        rw [if_neg (by simp [hkk]), if_neg (by simp [hpk]), ih]
      · rw [if_neg hp]
        by_cases hq : (p.1 == k) = true
        · rw [if_pos hq, if_pos hq]
        · rw [if_neg hq, if_neg hq]
          exact ih
  · rw [if_neg hany]
    clear hany
    induction mp with
    | nil => simp [dictGet, hkk]
    | cons p rest ih =>
      simp only [List.cons_append, dictGet]
      by_cases hq : (p.1 == k) = true
      · rw [if_pos hq, if_pos hq]
      · rw [if_neg hq, if_neg hq]
        exact ih

/-- The sort dict built by the fold reads back, for each key, the fields of
the last matching `SORT` statement. -/
theorem dictGet_extract_fold (k : String) :
    ∀ (ms : List SortM) (mp : List (String × List String)),
      dictGet k (ms.foldl (fun mp r => dictInsert mp (upStr r.itab) (sortFieldsOfRaw r.fieldsRaw)) mp)
        =
      match ms.reverse.find? (fun m => upStr m.itab == k) with
      | some m => some (sortFieldsOfRaw m.fieldsRaw)
      | none => dictGet k mp := by
  intro ms
  induction ms with
  | nil => intro mp; rfl
  | cons m rest ih =>
    intro mp
    rw [List.foldl_cons, ih, List.reverse_cons, findq_append]
    cases hfind : rest.reverse.find? (fun m' => upStr m'.itab == k) with
    | some m' => rfl
    | none =>
      cases hp : (upStr m.itab == k) with
      | true =>
        simp only [List.find?, hp]
        rw [beq_iff_eq] at hp
        rw [← hp]
        exact dictGet_dictInsert_self _ _ mp
      | false =>
        simp only [List.find?, hp]
        rw [beq_eq_false_iff_ne] at hp
        exact dictGet_dictInsert_ne k (upStr m.itab) hp _ mp

/-- The `remediate-array` loop appends exactly the scanned units that carry
at least one finding, in input order. -/
theorem remediateLoop_eq_filter :
    ∀ (l : List Unit) (acc : List ScannedUnit),
      remediateLoop acc l = acc ++ (l.map scan_unit).filter fun s => !s.findings.isEmpty := by
  intro l
  induction l with
  | nil => intro acc; simp [remediateLoop]
  | cons u rest ih =>
    intro acc
    simp only [remediateLoop]
    by_cases hf : (scan_unit u).findings.isEmpty = true
    · rw [if_pos hf, ih]
      have hfe : (scan_unit u).findings = [] := by
        cases hx : (scan_unit u).findings
        · rfl
        · rw [hx] at hf
          cases hf
      simp [List.filter_cons, hf, hfe]
    · rw [if_neg hf, ih]
      have hff := bool_eq_false hf
      have hfe : ¬ (scan_unit u).findings = [] := by
        intro he
        rw [he] at hff
        cases hff
      simp [List.filter_cons, hff, hfe, List.append_assoc]

/-! ### Claim theorems -/

/-- C1 (counterexample): the claim says a read that occurs before the only
matching `SORT` of its table is still flagged.  On the text
`READ TABLE T WITH KEY A = 1.\nSORT T BY A.` the read matcher fires exactly
once, yet `find_read_table_usage` emits no finding, because the sort index
is built from the whole block before the reads are evaluated. -/
theorem c1_read_before_sort_not_flagged :
    (readMatches "READ TABLE T WITH KEY A = 1.\nSORT T BY A.").length = 1 ∧
    find_read_table_usage "READ TABLE T WITH KEY A = 1.\nSORT T BY A." = [] :=
  ⟨rfl, rfl⟩

/-- C1 (amended): a `READ TABLE ... WITH KEY` match produces a finding iff
the sort index built from the entire block (last `SORT` of the table
anywhere in the text, before or after the read) does not cover its key
fields: the number of findings equals the number of uncovered read matches,
and every emitted finding is uncovered against the whole-block sort index. -/
theorem c1_flagged_iff_block_sort_index_uncovered :
    (∀ txt : String,
      (find_read_table_usage txt).length =
        ((readMatches txt).filter fun m =>
          !(fields_match (lookupFields (extract_sort_statements txt) m.itab)
              (keyFieldsOf m))).length)
    ∧ (∀ txt : String,
      ((find_read_table_usage txt).all fun h =>
        !(fields_match (lookupFields (extract_sort_statements txt) h.itab) h.keys)) = true) := by
  constructor
  · intro txt
    unfold find_read_table_usage
    rw [length_filterMap_eq_length_filter]
    apply congrArg List.length
    apply List.filter_congr
    intro m _
    rw [mkHit_isSome]
  · intro txt
    rw [List.all_eq_true]
    intro h hh
    simp only [find_read_table_usage] at hh
    rw [List.mem_filterMap] at hh
    obtain ⟨m, -, hmk⟩ := hh
    obtain ⟨hi, hk, hfm, -⟩ := mkHit_spec hmk
    rw [hi, hk, hfm]
    rfl

/-- C2: a read is covered iff its key list `K` is non-empty, the sort list
`S` is non-empty, `len(S) >= len(K)` and the first `len(K)` entries of `S`
equal `K` in order; reading with keys `[B, A]` after sorting by `[A, B]` is
uncovered, reading `[A, B]` after sorting by `[A]` alone is uncovered, and
two empty lists are also uncovered. -/
theorem c2_coverage_rule :
    (∀ S K : List String, fields_match S K = true ↔
        K ≠ [] ∧ S ≠ [] ∧ K.length ≤ S.length ∧ S.take K.length = K)
    ∧ (find_read_table_usage "SORT T BY A, B.\nREAD TABLE T WITH KEY B = 1 A = 2.").length = 1
    ∧ (find_read_table_usage "SORT T BY A.\nREAD TABLE T WITH KEY A = 1 B = 2.").length = 1
    ∧ fields_match [] [] = false := by
  refine ⟨?_, rfl, rfl, rfl⟩
  intro S K
  unfold fields_match
  by_cases h1 : (S.isEmpty || K.isEmpty) = true
  · rw [if_pos h1]
    constructor
    · intro h
      cases h
    · rintro ⟨hK, hS, -, -⟩
      rw [Bool.or_eq_true] at h1
      rcases h1 with h | h
      · rw [List.isEmpty_iff] at h
        exact absurd h hS
      · rw [List.isEmpty_iff] at h
        exact absurd h hK
  · rw [if_neg h1]
    rw [Bool.or_eq_true, not_or] at h1
    obtain ⟨hS, hK⟩ := h1
    rw [List.isEmpty_iff] at hS hK
    by_cases h2 : S.length < K.length
    · rw [if_pos h2]
      constructor
      · intro h
        cases h
      · rintro ⟨-, -, hle, -⟩
        omega
    · rw [if_neg h2, beq_iff_eq]
      constructor
      · intro h
        exact ⟨hK, hS, by omega, h⟩
      · rintro ⟨-, -, -, h⟩
        exact h

/-- C3: when the same table is sorted several times, the sort index holds
the fields of the last occurrence in text order (the dict entry is
overwritten, not merged); for
`SORT T BY A.\nSORT T BY B.\nREAD TABLE T WITH KEY B = 1.` the index maps
`T` to `[B]` and the read is covered, producing no finding. -/
theorem c3_last_sort_wins :
    (∀ (txt : String) (k : String),
      dictGet k (extract_sort_statements txt) =
        ((sortMatches txt).reverse.find? fun m => upStr m.itab == k).map
          (fun m => sortFieldsOfRaw m.fieldsRaw))
    ∧ dictGet "T"
        (extract_sort_statements "SORT T BY A.\nSORT T BY B.\nREAD TABLE T WITH KEY B = 1.")
        = some ["B"]
    ∧ find_read_table_usage "SORT T BY A.\nSORT T BY B.\nREAD TABLE T WITH KEY B = 1." = [] := by
  refine ⟨?_, rfl, rfl⟩
  intro txt k
  unfold extract_sort_statements
  rw [dictGet_extract_fold]
  cases hf : (sortMatches txt).reverse.find? (fun m => upStr m.itab == k) with
  | none => rfl
  | some m => rfl

/-- C4: matching of table identifiers and fields is case-insensitive, both
sides being upper-cased before comparison: the sort-index lookup gives the
same fields for any two spellings of a table identifier that agree up to
case, and sorting `tab1` by `fld1` then reading `TAB1` with key `FLD1 = x`
is covered, yielding no finding. -/
theorem c4_case_insensitive_matching :
    find_read_table_usage "SORT tab1 BY fld1.\nREAD TABLE TAB1 WITH KEY FLD1 = x." = []
    ∧ (∀ (sm : List (String × List String)) (a b : String),
        upStr a = upStr b → lookupFields sm a = lookupFields sm b) := by
  refine ⟨rfl, ?_⟩
  intro sm a b hab
  unfold lookupFields
  rw [hab]

/-- C4 witness: the general part applied to `tab1` / `TAB1` over the index
built from `SORT tab1 BY fld1.`. -/
theorem c4_case_insensitive_matching_witness :
    upStr "tab1" = upStr "TAB1" ∧
    lookupFields (extract_sort_statements "SORT tab1 BY fld1.") "tab1" =
      lookupFields (extract_sort_statements "SORT tab1 BY fld1.") "TAB1" :=
  ⟨by decide, c4_case_insensitive_matching.2 (extract_sort_statements "SORT tab1 BY fld1.")
    "tab1" "TAB1" (by decide)⟩

/-- C5 (counterexample): the claim says that with no base offset supplied a
read on the first line has `starting_line = 1`.  With the model's default
`start_line = 0` the code computes `base + (rel_line - 1) = 0` although the
relative line number of the read is `1`. -/
theorem c5_first_line_read_reported_as_zero :
    ((scan_unit
      { pgm_name := "P", inc_name := "I", type := "TY",
        code := some "READ TABLE VBAK WITH KEY VBELN = 1." }).findings.map
      fun f => f.starting_line) = [some 0]
    ∧ get_line "READ TABLE VBAK WITH KEY VBELN = 1." 0 = 1 :=
  ⟨rfl, rfl⟩

/-- C5 (amended): `starting_line` is the 1-based relative line of the match
start plus `base - 1` where `base` is the unit's `start_line` (defaulting to
`0`, so with no base supplied a first-line read is reported as line `0`,
not `1`), and `ending_line` is `starting_line` plus the number of physical
lines of the full-line-expanded snippet minus one; with base `5` a
two-line read match is reported as lines `5`–`6`. -/
theorem c5_line_number_derivation :
    (∀ u : Unit,
      ((scan_unit u).findings.map fun f => (f.starting_line, f.ending_line)) =
        ((find_read_table_usage (u.code.getD "")).map fun h =>
          (some ((u.start_line.getD 0) + (get_line (u.code.getD "") h.mstart - 1)),
           some ((u.start_line.getD 0) + (get_line (u.code.getD "") h.mstart - 1)
             + ((get_multiline_snippet (u.code.getD "") h.mstart h.mend).data.count '\n' + 1)
             - 1))))
    ∧ ((scan_unit
        { pgm_name := "P", inc_name := "I", type := "TY", start_line := some 5,
          code := some "READ TABLE T WITH KEY\nA = 1." }).findings.map
        fun f => (f.starting_line, f.ending_line, f.snippet)) =
        [(some 5, some 6, some "READ TABLE T WITH KEY\\nA = 1.")] := by
  constructor
  · intro u
    simp only [scan_unit]
    rw [List.map_map]
    rfl
  · rfl

/-- C6: every finding for a read with at least one extracted key field
carries the literal suggestion `SORT <TABLE> BY <FIELD1>, <FIELD2>, ...`
followed by a period, built from the matched table identifier and the key
fields in order; with no extracted key field the suggestion is `none`.  The
input `READ TABLE VBAK WITH KEY VBELN = '1'.` with no prior sort yields
exactly one finding with issue type `READ_TABLE_Without_SORT` and
suggestion `SORT VBAK BY VBELN.`. -/
theorem c6_suggestion_format :
    (∀ txt : String,
      ((find_read_table_usage txt).all fun h =>
        h.suggestion == (if h.keys.isEmpty then none
          else some ("SORT " ++ h.itab ++ " BY " ++ joinSep ", " h.keys ++ "."))) = true)
    ∧ (find_read_table_usage "READ TABLE VBAK WITH KEY VBELN = \x271\x27.").map
        (fun h => (h.keys, h.suggestion)) = [(["VBELN"], some "SORT VBAK BY VBELN.")]
    ∧ ((scan_unit
        { pgm_name := "P", inc_name := "I", type := "TY",
          code := some "READ TABLE VBAK WITH KEY VBELN = \x271\x27." }).findings.map
        fun f => (f.issues_type, f.suggestion)) =
        [(some "READ_TABLE_Without_SORT", some "SORT VBAK BY VBELN.")]
    ∧ (find_read_table_usage "READ TABLE T WITH KEY X.").map (fun h => h.suggestion)
        = [none] := by
  refine ⟨?_, rfl, rfl, rfl⟩
  intro txt
  rw [List.all_eq_true]
  intro h hh
  simp only [find_read_table_usage] at hh
  rw [List.mem_filterMap] at hh
  obtain ⟨m, -, hmk⟩ := hh
  obtain ⟨hi, hk, -, hs⟩ := mkHit_spec hmk
  rw [beq_iff_eq, hs, hk, hi]

/-- C7: the engine is total over its inputs: empty text yields no findings,
a unit with missing (`None`) code yields no findings, text without any read
match yields no findings, and when every matched read is covered the
findings list is empty. -/
theorem c7_engine_total :
    find_read_table_usage "" = []
    ∧ (∀ u : Unit, u.code = none → (scan_unit u).findings = [])
    ∧ (∀ txt : String, readMatches txt = [] → find_read_table_usage txt = [])
    ∧ (∀ txt : String,
        ((readMatches txt).all fun m =>
          fields_match (lookupFields (extract_sort_statements txt) m.itab)
            (keyFieldsOf m)) = true →
        find_read_table_usage txt = []) := by
  refine ⟨rfl, ?_, ?_, ?_⟩
  · intro u hc
    simp only [scan_unit, hc]
    rfl
  · intro txt h
    unfold find_read_table_usage
    rw [h]
    rfl
  · intro txt h
    rw [List.all_eq_true] at h
    unfold find_read_table_usage
    exact filterMap_nil_of_forall_none _ _ fun m hm =>
      mkHit_none_of_covered _ _ (h m hm)

/-- C7 witness: the hypotheses discharged on a unit with `None` code, a
text without reads, and the covered scenario
`SORT VBAK BY VBELN.\nREAD TABLE VBAK WITH KEY VBELN = '1'.`. -/
theorem c7_engine_total_witness :
    (scan_unit { pgm_name := "P", inc_name := "I", type := "TY", code := none }).findings
      = []
    ∧ find_read_table_usage "no table access in this block" = []
    ∧ find_read_table_usage "SORT VBAK BY VBELN.\nREAD TABLE VBAK WITH KEY VBELN = \x271\x27."
      = [] :=
  ⟨c7_engine_total.2.1 _ rfl,
   c7_engine_total.2.2.1 "no table access in this block" rfl,
   c7_engine_total.2.2.2 "SORT VBAK BY VBELN.\nREAD TABLE VBAK WITH KEY VBELN = \x271\x27."
     (by decide)⟩

/-- C8: the evaluate-many endpoint returns exactly the scanned units that
produced at least one finding, in input order, and the evaluate-one
endpoint returns the scanned unit unconditionally. -/
theorem c8_endpoint_shapes :
    (∀ units : List Unit,
      remediate_read_array units =
        (units.map scan_unit).filter fun s => !s.findings.isEmpty)
    ∧ (∀ u : Unit, remediate_read u = scan_unit u) := by
  constructor
  · intro units
    unfold remediate_read_array
    rw [remediateLoop_eq_filter]
    rfl
  · intro u
    rfl

/-- C9: the scanned unit carries every unit-descriptor field unchanged and
only the findings list is newly computed; every finding passes the unit's
metadata through into `prog_name`, `incl_name`, `types` and `blockname`. -/
theorem c9_unit_metadata_passthrough :
    ∀ u : Unit,
      (scan_unit u).pgm_name = u.pgm_name ∧ (scan_unit u).inc_name = u.inc_name ∧
      (scan_unit u).type = u.type ∧ (scan_unit u).name = u.name ∧
      (scan_unit u).start_line = u.start_line ∧ (scan_unit u).end_line = u.end_line ∧
      (scan_unit u).code = u.code ∧
      ((scan_unit u).findings.all fun f =>
        f.prog_name == some u.pgm_name && f.incl_name == some u.inc_name &&
        f.types == some u.type && f.blockname == u.name) = true := by
  intro u
  refine ⟨rfl, rfl, rfl, rfl, rfl, rfl, rfl, ?_⟩
  rw [List.all_eq_true]
  intro f hf
  simp only [scan_unit] at hf
  rw [List.mem_map] at hf
  obtain ⟨h, -, hfe⟩ := hf
  rw [← hfe]
  simp

/-- C10: the read matcher spans statement boundaries: on
`READ TABLE T1 INDEX 1.\nREAD TABLE T2 WITH KEY A = 1.` with no sorts,
exactly one finding is produced, attributing key list `[A]` (taken from the
second statement) to table `T1` from the first statement, with suggestion
`SORT T1 BY A.`; the read on `T2` yields no finding of its own. -/
theorem c10_matcher_spans_statements :
    (find_read_table_usage "READ TABLE T1 INDEX 1.\nREAD TABLE T2 WITH KEY A = 1.").map
        (fun h => (h.itab, h.keys, h.suggestion))
      = [("T1", ["A"], some "SORT T1 BY A.")]
    ∧ (find_read_table_usage "READ TABLE T1 INDEX 1.\nREAD TABLE T2 WITH KEY A = 1.").length
      = 1 :=
  ⟨rfl, rfl⟩

end App
